import Mathlib

/-!
Shallow embedding of the two NEAR contracts of this repository:
`contracts/payroll-attestation/src/lib.rs` (struct `PayrollAttestation`) and
`contracts/payroll-receipt-logger/src/lib.rs` (struct `PayrollReceiptLogger`).

The NEAR host supplies each call with the invoking account id
(`env::predecessor_account_id`) and the block timestamp (`env::block_timestamp`);
they are passed to each operation as explicit `caller` and `ts` arguments.
A Rust `assert!` / `env::panic_str` aborts the call and the host rolls back all
state, so a failing operation is modelled as returning `Except.error e` carrying
no successor state; the pre-state is kept by the caller (see `AttOp.apply`).
`HashMap` / `HashSet` fields are modelled as association lists / key lists that
are only ever written through the operations below, which never insert a key
twice.  Rust `String` is Lean `String`, `u64` is `Nat` (nonces and timestamps
are only compared and formatted, never combined arithmetically), and the bytes
of `Vec<u8>` / `[u8; 32]` are `Nat`.
-/

/-- Failure modes, one constructor per panic site in the two contracts:
`unauthorized` for the allowed-caller and owner assertions, `invalidCommitment`
for the "commitment must be 32 bytes" assertion, `duplicateClaim` for
"Attestation for this claim_id already exists", `duplicateReceipt` for the
logger's "Receipt for this payroll_id already exists", and `nonceReused` for
the "nonce already used for this authorizer" panics. -/
inductive Err where
  | unauthorized
  | invalidCommitment
  | duplicateClaim
  | duplicateReceipt
  | nonceReused
  deriving DecidableEq, Repr

/-- Key lookup in an association list, mirroring `HashMap::get` /
`HashMap::contains_key` on maps whose keys are never inserted twice. -/
def lookupKey {K V : Type} [DecidableEq K] : List (K × V) → K → Option V
  | [], _ => none
  | (k', v) :: rest, k => if k' = k then some v else lookupKey rest k

/-- Membership in a list of keys, mirroring `HashSet::contains` and
`HashMap::contains_key` for a unit-valued map. -/
def memKey {K : Type} [DecidableEq K] : List K → K → Bool
  | [], _ => false
  | k' :: rest, k => if k' = k then true else memKey rest k

/-- The access check repeated at the top of every mutating record operation of
both contracts: `if let Some(ref allowed) = self.allowed_caller
{ assert_eq!(caller, *allowed, ...) }`.  Returns `true` exactly when the
assertion passes (no `allowed_caller` restriction, or an exact identity
match). -/
def allowedCallerCheck (allowed_caller : Option String) (caller : String) : Bool :=
  match allowed_caller with
  | some allowed => decide (caller = allowed)
  | none => true

/-- `PaymentAttestation` record of the payroll-attestation contract.  The Rust
field `commitment : [u8; 32]` is a byte array; bytes are `Nat` here and the
length-32 guarantee comes from the check in `record_payment`. -/
structure PaymentAttestation where
  claim_id : String
  execution_ref : String
  commitment : List Nat
  timestamp_nanos : Nat
  deriving DecidableEq, Repr

/-- `ReceiptRecord` of the payroll-attestation contract. -/
structure ReceiptRecord where
  payroll_id : String
  batch_hash : String
  authorizer_id : String
  nonce : Nat
  executor_id : String
  status : String
  tx_refs_hash : String
  timestamp_nanos : Nat
  deriving DecidableEq, Repr

/-- Contract state of `payroll-attestation` (struct `PayrollAttestation`):
owner, optional allowed caller, the `payments` and `receipts` maps and the
`used_receipt_nonces : HashSet<String>` of keys `"authorizer_id::nonce"`. -/
structure PayrollAttestation where
  owner_id : String
  allowed_caller : Option String
  payments : List (String × PaymentAttestation)
  receipts : List (String × ReceiptRecord)
  used_receipt_nonces : List String
  deriving DecidableEq, Repr

namespace PayrollAttestation

/-- `new` (lib.rs:58-72): `owner_id` is the deployer
(`env::predecessor_account_id`, here `caller`); an empty `allowed_caller`
argument is normalised to `None` (empty string means any caller). -/
def new (caller : String) (allowed_caller : String) : PayrollAttestation :=
  { owner_id := caller,
    allowed_caller := if allowed_caller = "" then none else some allowed_caller,
    payments := [],
    receipts := [],
    used_receipt_nonces := [] }

/-- `record_payment` (lib.rs:77-109): allowed-caller check, 32-byte commitment
length check, duplicate `claim_id` check, then insert the attestation with the
block timestamp. -/
def record_payment (s : PayrollAttestation) (caller : String) (ts : Nat)
    (claim_id execution_ref : String) (commitment : List Nat) :
    Except Err PayrollAttestation :=
  if allowedCallerCheck s.allowed_caller caller = true then
    if commitment.length = 32 then
      if (lookupKey s.payments claim_id).isSome = true then
        .error .duplicateClaim
      else
        .ok { s with payments := (claim_id,
          { claim_id := claim_id, execution_ref := execution_ref,
            commitment := commitment, timestamp_nanos := ts }) :: s.payments }
    else .error .invalidCommitment
  else .error .unauthorized

/-- `get_payment` (lib.rs:111-113): pure lookup, no access check. -/
def get_payment (s : PayrollAttestation) (claim_id : String) :
    Option PaymentAttestation :=
  lookupKey s.payments claim_id

/-- `set_allowed_caller` (lib.rs:115-122): only the owner may call; the stored
value is replaced unconditionally. -/
def set_allowed_caller (s : PayrollAttestation) (caller : String)
    (account_id : Option String) : Except Err PayrollAttestation :=
  if caller = s.owner_id then .ok { s with allowed_caller := account_id }
  else .error .unauthorized

/-- The composite nonce-ledger key of the attestation contract,
`format!("{}::{}", authorizer_id, nonce)` (lib.rs:145). -/
def nonce_key (authorizer_id : String) (nonce : Nat) : String :=
  authorizer_id ++ "::" ++ toString nonce

/-- `record_receipt` (lib.rs:128-164): access check; silent no-op (`return;`)
when `payroll_id` already has a receipt; then the nonce-replay check on
`nonce_key`; then both inserts. -/
def record_receipt (s : PayrollAttestation) (caller : String) (ts : Nat)
    (payroll_id batch_hash authorizer_id : String) (nonce : Nat)
    (executor_id status tx_refs_hash : String) :
    Except Err PayrollAttestation :=
  if allowedCallerCheck s.allowed_caller caller = true then
    if (lookupKey s.receipts payroll_id).isSome = true then
      .ok s
    else if memKey s.used_receipt_nonces (nonce_key authorizer_id nonce) = true then
      .error .nonceReused
    else
      .ok { s with
        receipts := (payroll_id,
          { payroll_id := payroll_id, batch_hash := batch_hash,
            authorizer_id := authorizer_id, nonce := nonce,
            executor_id := executor_id, status := status,
            tx_refs_hash := tx_refs_hash, timestamp_nanos := ts }) :: s.receipts,
        used_receipt_nonces :=
          nonce_key authorizer_id nonce :: s.used_receipt_nonces }
  else .error .unauthorized

/-- `get_receipt` (lib.rs:166-168): pure lookup. -/
def get_receipt (s : PayrollAttestation) (payroll_id : String) :
    Option ReceiptRecord :=
  lookupKey s.receipts payroll_id

/-- `is_nonce_used` (lib.rs:170-173): membership test on the nonce ledger. -/
def is_nonce_used (s : PayrollAttestation) (authorizer_id : String)
    (nonce : Nat) : Bool :=
  memKey s.used_receipt_nonces (nonce_key authorizer_id nonce)

end PayrollAttestation

/-- `Receipt` record of the payroll-receipt-logger contract. -/
structure Receipt where
  payroll_id : String
  batch_hash : String
  authorizer_id : String
  nonce : Nat
  executor_id : String
  status : String
  tx_refs_hash : String
  timestamp_nanos : Nat
  deriving DecidableEq, Repr

/-- Contract state of `payroll-receipt-logger` (struct `PayrollReceiptLogger`).
`used_nonces : HashMap<(String, u64), ()>` is modelled as the list of its
keys. -/
structure PayrollReceiptLogger where
  owner_id : String
  receipts : List (String × Receipt)
  used_nonces : List (String × Nat)
  allowed_caller : Option String
  deriving DecidableEq, Repr

namespace PayrollReceiptLogger

/-- `new` (logger lib.rs:57-65): stores the `allowed_caller` argument verbatim
(an `Option<String>`); unlike the attestation contract there is no
empty-string normalisation. -/
def new (caller : String) (allowed_caller : Option String) :
    PayrollReceiptLogger :=
  { owner_id := caller, receipts := [], used_nonces := [],
    allowed_caller := allowed_caller }

/-- `record_receipt` (logger lib.rs:70-114): access check; hard failure on a
duplicate `payroll_id`; nonce-replay check on the `(authorizer_id, nonce)`
pair; then both inserts. -/
def record_receipt (s : PayrollReceiptLogger) (caller : String) (ts : Nat)
    (payroll_id batch_hash authorizer_id : String) (nonce : Nat)
    (executor_id status tx_refs_hash : String) :
    Except Err PayrollReceiptLogger :=
  if allowedCallerCheck s.allowed_caller caller = true then
    if (lookupKey s.receipts payroll_id).isSome = true then
      .error .duplicateReceipt
    else if memKey s.used_nonces (authorizer_id, nonce) = true then
      .error .nonceReused
    else
      .ok { s with
        receipts := (payroll_id,
          { payroll_id := payroll_id, batch_hash := batch_hash,
            authorizer_id := authorizer_id, nonce := nonce,
            executor_id := executor_id, status := status,
            tx_refs_hash := tx_refs_hash, timestamp_nanos := ts }) :: s.receipts,
        used_nonces := (authorizer_id, nonce) :: s.used_nonces }
  else .error .unauthorized

/-- `get_receipt` (logger lib.rs:117-119): pure lookup. -/
def get_receipt (s : PayrollReceiptLogger) (payroll_id : String) :
    Option Receipt :=
  lookupKey s.receipts payroll_id

/-- `is_nonce_used` (logger lib.rs:122-125): membership test on the pair. -/
def is_nonce_used (s : PayrollReceiptLogger) (authorizer_id : String)
    (nonce : Nat) : Bool :=
  memKey s.used_nonces (authorizer_id, nonce)

/-- `set_allowed_caller` (logger lib.rs:128-135): only the owner may call. -/
def set_allowed_caller (s : PayrollReceiptLogger) (caller : String)
    (account_id : Option String) : Except Err PayrollReceiptLogger :=
  if caller = s.owner_id then .ok { s with allowed_caller := account_id }
  else .error .unauthorized

end PayrollReceiptLogger

/-- One external mutating call to the attestation contract, together with the
environment-supplied caller identity and block timestamp.  View functions
(`get_payment`, `get_receipt`, `is_nonce_used`) take `&self` and cannot change
state, so a trace consists of the three mutating calls only. -/
inductive AttOp where
  | payment (caller : String) (ts : Nat) (claim_id execution_ref : String)
      (commitment : List Nat)
  | receipt (caller : String) (ts : Nat)
      (payroll_id batch_hash authorizer_id : String) (nonce : Nat)
      (executor_id status tx_refs_hash : String)
  | setCaller (caller : String) (account_id : Option String)
  deriving DecidableEq, Repr

namespace AttOp

/-- Execute one call against the attestation contract state. -/
def run (s : PayrollAttestation) : AttOp → Except Err PayrollAttestation
  | payment c ts cid er com => s.record_payment c ts cid er com
  | receipt c ts p bh a n e st th => s.record_receipt c ts p bh a n e st th
  | setCaller c acc => s.set_allowed_caller c acc

/-- A panicking NEAR call is rolled back by the host: the post-state of a
failed call is the pre-state. -/
def apply (s : PayrollAttestation) (op : AttOp) : PayrollAttestation :=
  match run s op with
  | .ok s' => s'
  | .error _ => s

/-- Post-state after a sequence of calls. -/
def applyAll (s : PayrollAttestation) : List AttOp → PayrollAttestation
  | [] => s
  | op :: ops => applyAll (apply s op) ops

end AttOp

/-- One external mutating call to the receipt-logger contract. -/
inductive LogOp where
  | receipt (caller : String) (ts : Nat)
      (payroll_id batch_hash authorizer_id : String) (nonce : Nat)
      (executor_id status tx_refs_hash : String)
  | setCaller (caller : String) (account_id : Option String)
  deriving DecidableEq, Repr

namespace LogOp

/-- Execute one call against the logger contract state. -/
def run (s : PayrollReceiptLogger) : LogOp → Except Err PayrollReceiptLogger
  | receipt c ts p bh a n e st th => s.record_receipt c ts p bh a n e st th
  | setCaller c acc => s.set_allowed_caller c acc

/-- Post-state of one call; a panicking call is rolled back. -/
def apply (s : PayrollReceiptLogger) (op : LogOp) : PayrollReceiptLogger :=
  match run s op with
  | .ok s' => s'
  | .error _ => s

/-- Post-state after a sequence of calls. -/
def applyAll (s : PayrollReceiptLogger) : List LogOp → PayrollReceiptLogger
  | [] => s
  | op :: ops => applyAll (apply s op) ops

end LogOp

instance {e a : Type} [DecidableEq e] [DecidableEq a] : DecidableEq (Except e a) := fun x y =>
  match x, y with
  | .error e1, .error e2 =>
    if h : e1 = e2 then .isTrue (by rw [h]) else .isFalse (fun hc => h (Except.error.inj hc))
  | .ok a1, .ok a2 =>
    if h : a1 = a2 then .isTrue (by rw [h]) else .isFalse (fun hc => h (Except.ok.inj hc))
  | .error _, .ok _ => .isFalse (fun hc => Except.noConfusion hc)
  | .ok _, .error _ => .isFalse (fun hc => Except.noConfusion hc)

/-- Numeric value of a decimal digit character (used to read back the digit
string emitted by `Nat.repr`). -/
def digitVal (c : Char) : Nat := c.toNat - 48

/-- Value of a decimal digit string read most-significant first, with
accumulator; the left inverse of the digit emission in `Nat.toDigitsCore`. -/
def evalAcc : Nat → List Char → Nat
  | a, [] => a
  | a, c :: cs => evalAcc (a * 10 + digitVal c) cs

/-- True when the attestation-contract call carries `(a, n)` as its
`(authorizer_id, nonce)` arguments and, on the state `s` it is applied to,
takes the recording path: access check passed and `payroll_id` fresh.
Exactly these calls spend the `(a, n)` nonce-ledger entry. -/
def AttOp.spends (s : PayrollAttestation) (op : AttOp) (a : String) (n : Nat) : Prop :=
  match op with
  | .receipt c _ p _ a' n' _ _ _ =>
      a' = a ∧ n' = n ∧ allowedCallerCheck s.allowed_caller c = true ∧
        lookupKey s.receipts p = none
  | _ => False

/-- Logger analogue of `AttOp.spends`. -/
def LogOp.spends (s : PayrollReceiptLogger) (op : LogOp) (a : String) (n : Nat) : Prop :=
  match op with
  | .receipt c _ p _ a' n' _ _ _ =>
      a' = a ∧ n' = n ∧ allowedCallerCheck s.allowed_caller c = true ∧
        lookupKey s.receipts p = none
  | _ => False

/-- A reachable attestation state: unrestricted store owned by `"o"` holding
one receipt for `"p1"` recorded at timestamp 5 with the `("a", 1)` nonce. -/
def attS1 : PayrollAttestation :=
  { owner_id := "o", allowed_caller := none, payments := [],
    receipts := [("p1",
      { payroll_id := "p1", batch_hash := "bh", authorizer_id := "a", nonce := 1,
        executor_id := "e", status := "ok", tx_refs_hash := "t1",
        timestamp_nanos := 5 })],
    used_receipt_nonces := ["a::1"] }

/-- A reachable attestation state: unrestricted store owned by `"o"` holding
one payment attestation for claim `"c1"` recorded at timestamp 7. -/
def attSpay : PayrollAttestation :=
  { owner_id := "o", allowed_caller := none,
    payments := [("c1",
      { claim_id := "c1", execution_ref := "e1",
        commitment := List.replicate 32 0, timestamp_nanos := 7 })],
    receipts := [], used_receipt_nonces := [] }

/-- A reachable logger state: unrestricted store owned by `"o"` holding one
receipt for `"p1"` recorded at timestamp 5 with the `("a", 1)` nonce. -/
def logS1 : PayrollReceiptLogger :=
  { owner_id := "o",
    receipts := [("p1",
      { payroll_id := "p1", batch_hash := "bh", authorizer_id := "a", nonce := 1,
        executor_id := "e", status := "ok", tx_refs_hash := "t1",
        timestamp_nanos := 5 })],
    used_nonces := [("a", 1)], allowed_caller := none }

theorem lookupKey_cons {K V : Type} [DecidableEq K] (k' : K) (v : V)
    (m : List (K × V)) (k : K) :
    lookupKey ((k', v) :: m) k = if k' = k then some v else lookupKey m k := rfl

theorem memKey_cons {K : Type} [DecidableEq K] (k' : K) (l : List K) (k : K) :
    memKey (k' :: l) k = if k' = k then true else memKey l k := rfl

theorem digitVal_digitChar {k : Nat} (h : k < 10) :
    digitVal (Nat.digitChar k) = k := by
  interval_cases k <;> decide

theorem digitChar_ne_colon {k : Nat} (h : k < 10) : Nat.digitChar k ≠ ':' := by
  interval_cases k <;> decide

theorem toDigitsCore_succ (f n : Nat) (ds : List Char) :
    Nat.toDigitsCore 10 (f + 1) n ds =
      if n / 10 = 0 then Nat.digitChar (n % 10) :: ds
      else Nat.toDigitsCore 10 f (n / 10) (Nat.digitChar (n % 10) :: ds) := rfl

theorem mem_toDigitsCore_ten :
    ∀ (fuel n : Nat) (ds : List Char) (c : Char),
      c ∈ Nat.toDigitsCore 10 fuel n ds →
      c ∈ ds ∨ ∃ k, k < 10 ∧ c = Nat.digitChar k := by
  intro fuel
  induction fuel with
  | zero => intro n ds c h; exact Or.inl h
  | succ f ih =>
    intro n ds c h
    rw [toDigitsCore_succ] at h
    by_cases h0 : n / 10 = 0
    · rw [if_pos h0] at h
      rcases List.mem_cons.mp h with h1 | h2
      · exact Or.inr ⟨n % 10, Nat.mod_lt _ (by norm_num), h1⟩
      · exact Or.inl h2
    · rw [if_neg h0] at h
      rcases ih _ _ _ h with h1 | h2
      · rcases List.mem_cons.mp h1 with h3 | h4
        · exact Or.inr ⟨n % 10, Nat.mod_lt _ (by norm_num), h3⟩
        · exact Or.inl h4
      · exact Or.inr h2

theorem repr_data_eq_toDigits (n : Nat) :
    (Nat.repr n).data = Nat.toDigits 10 n := rfl

theorem colon_not_mem_repr (n : Nat) : ':' ∉ (Nat.repr n).data := by
  intro hmem
  rw [repr_data_eq_toDigits] at hmem
  rcases mem_toDigitsCore_ten _ _ _ _ hmem with h | ⟨k, hk, he⟩
  · simp at h
  · exact digitChar_ne_colon hk he.symm

theorem toDigitsCore_append_acc :
    ∀ (fuel n : Nat) (ds : List Char),
      Nat.toDigitsCore 10 fuel n ds = Nat.toDigitsCore 10 fuel n [] ++ ds := by
  intro fuel
  induction fuel with
  | zero => intro n ds; rfl
  | succ f ih =>
    intro n ds
    rw [toDigitsCore_succ, toDigitsCore_succ]
    by_cases h0 : n / 10 = 0
    · rw [if_pos h0, if_pos h0]; rfl
    · rw [if_neg h0, if_neg h0,
        ih (n / 10) (Nat.digitChar (n % 10) :: ds),
        ih (n / 10) (Nat.digitChar (n % 10) :: []),
        List.append_assoc]
      rfl

theorem toDigitsCore_fuel_irrel :
    ∀ (n f1 f2 : Nat) (ds : List Char), 0 < f1 → n < 10 ^ f1 → 0 < f2 → n < 10 ^ f2 →
      Nat.toDigitsCore 10 f1 n ds = Nat.toDigitsCore 10 f2 n ds := by
  intro n
  induction n using Nat.strong_induction_on with
  | _ n ih =>
    intro f1 f2 ds h1 hn1 h2 hn2
    obtain ⟨g1, rfl⟩ : ∃ g1, f1 = g1 + 1 := ⟨f1 - 1, by omega⟩
    obtain ⟨g2, rfl⟩ : ∃ g2, f2 = g2 + 1 := ⟨f2 - 1, by omega⟩
    rw [toDigitsCore_succ, toDigitsCore_succ]
    by_cases h0 : n / 10 = 0
    · rw [if_pos h0, if_pos h0]
    · rw [if_neg h0, if_neg h0]
      have hg1 : 0 < g1 := by
        by_contra hc
        have hz : g1 = 0 := by omega
        subst hz
        simp at hn1
        omega
      have hg2 : 0 < g2 := by
        by_contra hc
        have hz : g2 = 0 := by omega
        subst hz
        simp at hn2
        omega
      have hd1 : n / 10 < 10 ^ g1 := by
        have hx : n < 10 ^ g1 * 10 := by rw [← pow_succ]; exact hn1
        omega
      have hd2 : n / 10 < 10 ^ g2 := by
        have hx : n < 10 ^ g2 * 10 := by rw [← pow_succ]; exact hn2
        omega
      exact ih (n / 10) (by omega) g1 g2 _ hg1 hd1 hg2 hd2

theorem evalAcc_append (a : Nat) (l1 l2 : List Char) :
    evalAcc a (l1 ++ l2) = evalAcc (evalAcc a l1) l2 := by
  induction l1 generalizing a with
  | nil => rfl
  | cons c cs ih =>
    show evalAcc (a * 10 + digitVal c) (cs ++ l2)
        = evalAcc (evalAcc (a * 10 + digitVal c) cs) l2
    exact ih _

theorem evalAcc_toDigits (n : Nat) : evalAcc 0 (Nat.toDigits 10 n) = n := by
  induction n using Nat.strong_induction_on with
  | _ n ih =>
    show evalAcc 0 (Nat.toDigitsCore 10 (n + 1) n []) = n
    rw [toDigitsCore_succ]
    by_cases h0 : n / 10 = 0
    · rw [if_pos h0]
      have hdv := digitVal_digitChar (k := n % 10) (Nat.mod_lt _ (by norm_num))
      show 0 * 10 + digitVal (Nat.digitChar (n % 10)) = n
      rw [hdv]
      omega
    · rw [if_neg h0]
      have hge : 10 ≤ n := by
        by_contra hc
        exact h0 (by omega)
      have hfa : Nat.toDigitsCore 10 n (n / 10) [Nat.digitChar (n % 10)]
          = Nat.toDigitsCore 10 (n / 10 + 1) (n / 10) [Nat.digitChar (n % 10)] := by
        apply toDigitsCore_fuel_irrel
        · omega
        · calc n / 10 ≤ n := Nat.div_le_self _ _
            _ < 10 ^ n := Nat.lt_pow_self (by norm_num) n
        · omega
        · calc n / 10 < 10 ^ (n / 10) := Nat.lt_pow_self (by norm_num) _
            _ ≤ 10 ^ (n / 10 + 1) := Nat.pow_le_pow_right (by norm_num) (by omega)
      rw [hfa, toDigitsCore_append_acc, evalAcc_append]
      have hih : evalAcc 0 (Nat.toDigitsCore 10 (n / 10 + 1) (n / 10) []) = n / 10 :=
        ih (n / 10) (by omega)
      rw [hih]
      have hdv := digitVal_digitChar (k := n % 10) (Nat.mod_lt _ (by norm_num))
      show (n / 10) * 10 + digitVal (Nat.digitChar (n % 10)) = n
      rw [hdv]
      omega

theorem repr_injective {m n : Nat} (h : Nat.repr m = Nat.repr n) : m = n := by
  have hd : Nat.toDigits 10 m = Nat.toDigits 10 n := congrArg String.data h
  have h2 := congrArg (evalAcc 0) hd
  rwa [evalAcc_toDigits, evalAcc_toDigits] at h2

theorem append_marker_inj {α : Type} (c : α) :
    ∀ (xs1 xs2 ys1 ys2 : List α), c ∉ xs1 → c ∉ xs2 →
      xs1 ++ c :: c :: ys1 = xs2 ++ c :: c :: ys2 → xs1 = xs2 ∧ ys1 = ys2 := by
  intro xs1
  induction xs1 with
  | nil =>
    intro xs2 ys1 ys2 h1 h2 he
    cases xs2 with
    | nil =>
      refine ⟨rfl, ?_⟩
      simpa using he
    | cons x t =>
      exfalso
      simp only [List.nil_append, List.cons_append, List.cons.injEq] at he
      exact h2 (List.mem_cons.mpr (Or.inl he.1))
  | cons x1 t1 ih =>
    intro xs2 ys1 ys2 h1 h2 he
    cases xs2 with
    | nil =>
      exfalso
      simp only [List.nil_append, List.cons_append, List.cons.injEq] at he
      exact h1 (List.mem_cons.mpr (Or.inl he.1.symm))
    | cons x2 t2 =>
      simp only [List.cons_append, List.cons.injEq] at he
      obtain ⟨hx, ht⟩ := he
      have h1' : c ∉ t1 := fun hm => h1 (List.mem_cons.mpr (Or.inr hm))
      have h2' : c ∉ t2 := fun hm => h2 (List.mem_cons.mpr (Or.inr hm))
      obtain ⟨hts, hys⟩ := ih t2 ys1 ys2 h1' h2' ht
      exact ⟨by rw [hx, hts], hys⟩

/-- The string key `format!("{}::{}", authorizer_id, nonce)` of the attestation
nonce ledger is injective: the decimal digits after the final `"::"` contain no
colon, so the split is unambiguous.  Distinct `(authorizer_id, nonce)` pairs
therefore never collide in the ledger. -/
theorem nonce_key_inj {a1 a2 : String} {n1 n2 : Nat}
    (h : PayrollAttestation.nonce_key a1 n1 = PayrollAttestation.nonce_key a2 n2) :
    a1 = a2 ∧ n1 = n2 := by
  have hd : a1.data ++ ':' :: ':' :: (Nat.repr n1).data
      = a2.data ++ ':' :: ':' :: (Nat.repr n2).data := by
    have h2 := congrArg String.data h
    simpa [PayrollAttestation.nonce_key, String.data_append] using h2
  have hrev := congrArg List.reverse hd
  simp only [List.reverse_append, List.reverse_cons, List.append_assoc,
    List.singleton_append, List.nil_append, List.cons_append] at hrev
  have hmem1 : ':' ∉ ((Nat.repr n1).data).reverse := fun hm =>
    colon_not_mem_repr n1 (List.mem_reverse.mp hm)
  have hmem2 : ':' ∉ ((Nat.repr n2).data).reverse := fun hm =>
    colon_not_mem_repr n2 (List.mem_reverse.mp hm)
  obtain ⟨hds, has⟩ := append_marker_inj ':' _ _ _ _ hmem1 hmem2 hrev
  constructor
  · exact String.ext (List.reverse_inj.mp has)
  · exact repr_injective (String.ext (List.reverse_inj.mp hds))

theorem record_payment_ok_inv {s s' : PayrollAttestation} {c : String} {ts : Nat}
    {cid er : String} {com : List Nat}
    (h : s.record_payment c ts cid er com = .ok s') :
    allowedCallerCheck s.allowed_caller c = true ∧ com.length = 32 ∧
      lookupKey s.payments cid = none ∧
      s' = { s with payments := (cid,
        { claim_id := cid, execution_ref := er, commitment := com,
          timestamp_nanos := ts }) :: s.payments } := by
  unfold PayrollAttestation.record_payment at h
  split at h
  case isFalse hc => exact Except.noConfusion h
  case isTrue hc =>
    split at h
    case isFalse hl => exact Except.noConfusion h
    case isTrue hl =>
      split at h
      case isTrue hlk => exact Except.noConfusion h
      case isFalse hlk =>
        exact ⟨hc, hl, Option.not_isSome_iff_eq_none.mp hlk, (Except.ok.inj h).symm⟩

theorem att_receipt_ok_inv {s s' : PayrollAttestation} {c : String} {ts : Nat}
    {p bh a : String} {n : Nat} {e st th : String}
    (h : s.record_receipt c ts p bh a n e st th = .ok s') :
    allowedCallerCheck s.allowed_caller c = true ∧
      (((lookupKey s.receipts p).isSome = true ∧ s' = s) ∨
       (lookupKey s.receipts p = none ∧
        memKey s.used_receipt_nonces (PayrollAttestation.nonce_key a n) = false ∧
        s' = { s with
          receipts := (p,
            { payroll_id := p, batch_hash := bh, authorizer_id := a, nonce := n,
              executor_id := e, status := st, tx_refs_hash := th,
              timestamp_nanos := ts }) :: s.receipts,
          used_receipt_nonces :=
            PayrollAttestation.nonce_key a n :: s.used_receipt_nonces })) := by
  unfold PayrollAttestation.record_receipt at h
  split at h
  case isFalse hc => exact Except.noConfusion h
  case isTrue hc =>
    split at h
    case isTrue hp => exact ⟨hc, Or.inl ⟨hp, (Except.ok.inj h).symm⟩⟩
    case isFalse hp =>
      split at h
      case isTrue hm => exact Except.noConfusion h
      case isFalse hm =>
        refine ⟨hc, Or.inr ⟨Option.not_isSome_iff_eq_none.mp hp, ?_, (Except.ok.inj h).symm⟩⟩
        exact Bool.not_eq_true _ ▸ eq_false_of_ne_true hm

theorem att_receipt_err_inv {s : PayrollAttestation} {c : String} {ts : Nat}
    {p bh a : String} {n : Nat} {e st th : String} {er : Err}
    (h : s.record_receipt c ts p bh a n e st th = .error er) :
    (allowedCallerCheck s.allowed_caller c = false ∧ er = .unauthorized) ∨
      (allowedCallerCheck s.allowed_caller c = true ∧
       lookupKey s.receipts p = none ∧
       memKey s.used_receipt_nonces (PayrollAttestation.nonce_key a n) = true ∧
       er = .nonceReused) := by
  unfold PayrollAttestation.record_receipt at h
  split at h
  case isFalse hc =>
    exact Or.inl ⟨eq_false_of_ne_true hc, (Except.error.inj h).symm⟩
  case isTrue hc =>
    split at h
    case isTrue hp => exact Except.noConfusion h
    case isFalse hp =>
      split at h
      case isTrue hm =>
        exact Or.inr ⟨hc, Option.not_isSome_iff_eq_none.mp hp, hm,
          (Except.error.inj h).symm⟩
      case isFalse hm => exact Except.noConfusion h

theorem log_receipt_ok_inv {s s' : PayrollReceiptLogger} {c : String} {ts : Nat}
    {p bh a : String} {n : Nat} {e st th : String}
    (h : s.record_receipt c ts p bh a n e st th = .ok s') :
    allowedCallerCheck s.allowed_caller c = true ∧
      lookupKey s.receipts p = none ∧
      memKey s.used_nonces (a, n) = false ∧
      s' = { s with
        receipts := (p,
          { payroll_id := p, batch_hash := bh, authorizer_id := a, nonce := n,
            executor_id := e, status := st, tx_refs_hash := th,
            timestamp_nanos := ts }) :: s.receipts,
        used_nonces := (a, n) :: s.used_nonces } := by
  unfold PayrollReceiptLogger.record_receipt at h
  split at h
  case isFalse hc => exact Except.noConfusion h
  case isTrue hc =>
    split at h
    case isTrue hp => exact Except.noConfusion h
    case isFalse hp =>
      split at h
      case isTrue hm => exact Except.noConfusion h
      case isFalse hm =>
        refine ⟨hc, Option.not_isSome_iff_eq_none.mp hp, ?_, (Except.ok.inj h).symm⟩
        exact Bool.not_eq_true _ ▸ eq_false_of_ne_true hm

theorem att_set_ok_inv {s s' : PayrollAttestation} {c : String}
    {acc : Option String} (h : s.set_allowed_caller c acc = .ok s') :
    c = s.owner_id ∧ s' = { s with allowed_caller := acc } := by
  unfold PayrollAttestation.set_allowed_caller at h
  split at h
  case isTrue hc => exact ⟨hc, (Except.ok.inj h).symm⟩
  case isFalse hc => exact Except.noConfusion h

theorem log_set_ok_inv {s s' : PayrollReceiptLogger} {c : String}
    {acc : Option String} (h : s.set_allowed_caller c acc = .ok s') :
    c = s.owner_id ∧ s' = { s with allowed_caller := acc } := by
  unfold PayrollReceiptLogger.set_allowed_caller at h
  split at h
  case isTrue hc => exact ⟨hc, (Except.ok.inj h).symm⟩
  case isFalse hc => exact Except.noConfusion h

theorem lookupKey_insert_preserve {K V : Type} [DecidableEq K]
    {m : List (K × V)} {k k' : K} {v r : V}
    (h : lookupKey m k = some r) (hf : lookupKey m k' = none) :
    lookupKey ((k', v) :: m) k = some r := by
  rw [lookupKey_cons]
  by_cases he : k' = k
  · subst he; rw [hf] at h; exact Option.noConfusion h
  · rw [if_neg he]; exact h

theorem memKey_cons_preserve {K : Type} [DecidableEq K]
    {l : List K} {k k' : K} (h : memKey l k = true) :
    memKey (k' :: l) k = true := by
  rw [memKey_cons]
  by_cases he : k' = k
  · rw [if_pos he]
  · rw [if_neg he]; exact h

theorem att_apply_owner (s : PayrollAttestation) (op : AttOp) :
    (AttOp.apply s op).owner_id = s.owner_id := by
  unfold AttOp.apply
  cases hr : AttOp.run s op with
  | error e => rfl
  | ok s' =>
    cases op with
    | payment c ts cid er com =>
      obtain ⟨-, -, -, hs⟩ := record_payment_ok_inv hr
      rw [hs]
    | receipt c ts p bh a n e st th =>
      obtain ⟨-, hcase⟩ := att_receipt_ok_inv hr
      rcases hcase with ⟨-, hs⟩ | ⟨-, -, hs⟩ <;> rw [hs]
    | setCaller c acc =>
      obtain ⟨-, hs⟩ := att_set_ok_inv hr
      rw [hs]

theorem log_apply_owner (s : PayrollReceiptLogger) (op : LogOp) :
    (LogOp.apply s op).owner_id = s.owner_id := by
  unfold LogOp.apply
  cases hr : LogOp.run s op with
  | error e => rfl
  | ok s' =>
    cases op with
    | receipt c ts p bh a n e st th =>
      obtain ⟨-, -, -, hs⟩ := log_receipt_ok_inv hr
      rw [hs]
    | setCaller c acc =>
      obtain ⟨-, hs⟩ := log_set_ok_inv hr
      rw [hs]

theorem att_apply_payment_mono {s : PayrollAttestation} {op : AttOp}
    {cid : String} {r : PaymentAttestation}
    (h : lookupKey s.payments cid = some r) :
    lookupKey (AttOp.apply s op).payments cid = some r := by
  unfold AttOp.apply
  cases hr : AttOp.run s op with
  | error e => exact h
  | ok s' =>
    cases op with
    | payment c ts cid' er com =>
      obtain ⟨-, -, hf, hs⟩ := record_payment_ok_inv hr
      rw [hs]
      exact lookupKey_insert_preserve h hf
    | receipt c ts p bh a n e st th =>
      obtain ⟨-, hcase⟩ := att_receipt_ok_inv hr
      rcases hcase with ⟨-, hs⟩ | ⟨-, -, hs⟩ <;> rw [hs] <;> exact h
    | setCaller c acc =>
      obtain ⟨-, hs⟩ := att_set_ok_inv hr
      rw [hs]; exact h

theorem att_apply_receipt_mono {s : PayrollAttestation} {op : AttOp}
    {p : String} {r : ReceiptRecord}
    (h : lookupKey s.receipts p = some r) :
    lookupKey (AttOp.apply s op).receipts p = some r := by
  unfold AttOp.apply
  cases hr : AttOp.run s op with
  | error e => exact h
  | ok s' =>
    cases op with
    | payment c ts cid' er com =>
      obtain ⟨-, -, -, hs⟩ := record_payment_ok_inv hr
      rw [hs]; exact h
    | receipt c ts p' bh a n e st th =>
      obtain ⟨-, hcase⟩ := att_receipt_ok_inv hr
      rcases hcase with ⟨-, hs⟩ | ⟨hf, -, hs⟩
      · rw [hs]; exact h
      · rw [hs]; exact lookupKey_insert_preserve h hf
    | setCaller c acc =>
      obtain ⟨-, hs⟩ := att_set_ok_inv hr
      rw [hs]; exact h

theorem att_apply_nonce_mono {s : PayrollAttestation} {op : AttOp} {k : String}
    (h : memKey s.used_receipt_nonces k = true) :
    memKey (AttOp.apply s op).used_receipt_nonces k = true := by
  unfold AttOp.apply
  cases hr : AttOp.run s op with
  | error e => exact h
  | ok s' =>
    cases op with
    | payment c ts cid' er com =>
      obtain ⟨-, -, -, hs⟩ := record_payment_ok_inv hr
      rw [hs]; exact h
    | receipt c ts p' bh a n e st th =>
      obtain ⟨-, hcase⟩ := att_receipt_ok_inv hr
      rcases hcase with ⟨-, hs⟩ | ⟨-, -, hs⟩
      · rw [hs]; exact h
      · rw [hs]; exact memKey_cons_preserve h
    | setCaller c acc =>
      obtain ⟨-, hs⟩ := att_set_ok_inv hr
      rw [hs]; exact h

theorem log_apply_receipt_mono {s : PayrollReceiptLogger} {op : LogOp}
    {p : String} {r : Receipt}
    (h : lookupKey s.receipts p = some r) :
    lookupKey (LogOp.apply s op).receipts p = some r := by
  unfold LogOp.apply
  cases hr : LogOp.run s op with
  | error e => exact h
  | ok s' =>
    cases op with
    | receipt c ts p' bh a n e st th =>
      obtain ⟨-, hf, -, hs⟩ := log_receipt_ok_inv hr
      rw [hs]
      exact lookupKey_insert_preserve h hf
    | setCaller c acc =>
      obtain ⟨-, hs⟩ := log_set_ok_inv hr
      rw [hs]; exact h

theorem log_apply_nonce_mono {s : PayrollReceiptLogger} {op : LogOp}
    {k : String × Nat} (h : memKey s.used_nonces k = true) :
    memKey (LogOp.apply s op).used_nonces k = true := by
  unfold LogOp.apply
  cases hr : LogOp.run s op with
  | error e => exact h
  | ok s' =>
    cases op with
    | receipt c ts p' bh a n e st th =>
      obtain ⟨-, -, -, hs⟩ := log_receipt_ok_inv hr
      rw [hs]; exact memKey_cons_preserve h
    | setCaller c acc =>
      obtain ⟨-, hs⟩ := log_set_ok_inv hr
      rw [hs]; exact h

theorem att_applyAll_payment_mono {s : PayrollAttestation} {ops : List AttOp}
    {cid : String} {r : PaymentAttestation}
    (h : lookupKey s.payments cid = some r) :
    lookupKey (AttOp.applyAll s ops).payments cid = some r := by
  induction ops generalizing s with
  | nil => exact h
  | cons op ops ih => exact ih (att_apply_payment_mono h)

theorem att_applyAll_receipt_mono {s : PayrollAttestation} {ops : List AttOp}
    {p : String} {r : ReceiptRecord}
    (h : lookupKey s.receipts p = some r) :
    lookupKey (AttOp.applyAll s ops).receipts p = some r := by
  induction ops generalizing s with
  | nil => exact h
  | cons op ops ih => exact ih (att_apply_receipt_mono h)

theorem att_applyAll_nonce_mono {s : PayrollAttestation} {ops : List AttOp}
    {k : String} (h : memKey s.used_receipt_nonces k = true) :
    memKey (AttOp.applyAll s ops).used_receipt_nonces k = true := by
  induction ops generalizing s with
  | nil => exact h
  | cons op ops ih => exact ih (att_apply_nonce_mono h)

theorem log_applyAll_receipt_mono {s : PayrollReceiptLogger} {ops : List LogOp}
    {p : String} {r : Receipt}
    (h : lookupKey s.receipts p = some r) :
    lookupKey (LogOp.applyAll s ops).receipts p = some r := by
  induction ops generalizing s with
  | nil => exact h
  | cons op ops ih => exact ih (log_apply_receipt_mono h)

theorem log_applyAll_nonce_mono {s : PayrollReceiptLogger} {ops : List LogOp}
    {k : String × Nat} (h : memKey s.used_nonces k = true) :
    memKey (LogOp.applyAll s ops).used_nonces k = true := by
  induction ops generalizing s with
  | nil => exact h
  | cons op ops ih => exact ih (log_apply_nonce_mono h)

theorem att_payment_run_unauthorized {s : PayrollAttestation} {c : String}
    {ts : Nat} {cid er : String} {com : List Nat}
    (hc : allowedCallerCheck s.allowed_caller c = false) :
    s.record_payment c ts cid er com = .error .unauthorized := by
  simp [PayrollAttestation.record_payment, hc]

theorem att_payment_run_invalid {s : PayrollAttestation} {c : String}
    {ts : Nat} {cid er : String} {com : List Nat}
    (hc : allowedCallerCheck s.allowed_caller c = true) (hl : com.length ≠ 32) :
    s.record_payment c ts cid er com = .error .invalidCommitment := by
  simp [PayrollAttestation.record_payment, hc, hl]

theorem att_payment_run_duplicate {s : PayrollAttestation} {c : String}
    {ts : Nat} {cid er : String} {com : List Nat} {r : PaymentAttestation}
    (hc : allowedCallerCheck s.allowed_caller c = true) (hl : com.length = 32)
    (hd : lookupKey s.payments cid = some r) :
    s.record_payment c ts cid er com = .error .duplicateClaim := by
  simp [PayrollAttestation.record_payment, hc, hl, hd]

theorem att_payment_run_ok {s : PayrollAttestation} {c : String}
    {ts : Nat} {cid er : String} {com : List Nat}
    (hc : allowedCallerCheck s.allowed_caller c = true) (hl : com.length = 32)
    (hd : lookupKey s.payments cid = none) :
    s.record_payment c ts cid er com = .ok { s with payments := (cid,
      { claim_id := cid, execution_ref := er, commitment := com,
        timestamp_nanos := ts }) :: s.payments } := by
  simp [PayrollAttestation.record_payment, hc, hl, hd]

theorem att_receipt_run_unauthorized {s : PayrollAttestation} {c : String}
    {ts : Nat} {p bh a : String} {n : Nat} {e st th : String}
    (hc : allowedCallerCheck s.allowed_caller c = false) :
    s.record_receipt c ts p bh a n e st th = .error .unauthorized := by
  simp [PayrollAttestation.record_receipt, hc]

theorem att_receipt_run_silent {s : PayrollAttestation} {c : String}
    {ts : Nat} {p bh a : String} {n : Nat} {e st th : String}
    {r : ReceiptRecord}
    (hc : allowedCallerCheck s.allowed_caller c = true)
    (hp : lookupKey s.receipts p = some r) :
    s.record_receipt c ts p bh a n e st th = .ok s := by
  simp [PayrollAttestation.record_receipt, hc, hp]

theorem att_receipt_run_nonce_reused {s : PayrollAttestation} {c : String}
    {ts : Nat} {p bh a : String} {n : Nat} {e st th : String}
    (hc : allowedCallerCheck s.allowed_caller c = true)
    (hp : lookupKey s.receipts p = none)
    (hm : memKey s.used_receipt_nonces (PayrollAttestation.nonce_key a n) = true) :
    s.record_receipt c ts p bh a n e st th = .error .nonceReused := by
  simp [PayrollAttestation.record_receipt, hc, hp, hm]

theorem att_receipt_run_record {s : PayrollAttestation} {c : String}
    {ts : Nat} {p bh a : String} {n : Nat} {e st th : String}
    (hc : allowedCallerCheck s.allowed_caller c = true)
    (hp : lookupKey s.receipts p = none)
    (hm : memKey s.used_receipt_nonces (PayrollAttestation.nonce_key a n) = false) :
    s.record_receipt c ts p bh a n e st th = .ok { s with
      receipts := (p,
        { payroll_id := p, batch_hash := bh, authorizer_id := a, nonce := n,
          executor_id := e, status := st, tx_refs_hash := th,
          timestamp_nanos := ts }) :: s.receipts,
      used_receipt_nonces :=
        PayrollAttestation.nonce_key a n :: s.used_receipt_nonces } := by
  simp [PayrollAttestation.record_receipt, hc, hp, hm]

theorem log_receipt_run_unauthorized {s : PayrollReceiptLogger} {c : String}
    {ts : Nat} {p bh a : String} {n : Nat} {e st th : String}
    (hc : allowedCallerCheck s.allowed_caller c = false) :
    s.record_receipt c ts p bh a n e st th = .error .unauthorized := by
  simp [PayrollReceiptLogger.record_receipt, hc]

theorem log_receipt_run_duplicate {s : PayrollReceiptLogger} {c : String}
    {ts : Nat} {p bh a : String} {n : Nat} {e st th : String} {r : Receipt}
    (hc : allowedCallerCheck s.allowed_caller c = true)
    (hp : lookupKey s.receipts p = some r) :
    s.record_receipt c ts p bh a n e st th = .error .duplicateReceipt := by
  simp [PayrollReceiptLogger.record_receipt, hc, hp]

theorem log_receipt_run_nonce_reused {s : PayrollReceiptLogger} {c : String}
    {ts : Nat} {p bh a : String} {n : Nat} {e st th : String}
    (hc : allowedCallerCheck s.allowed_caller c = true)
    (hp : lookupKey s.receipts p = none)
    (hm : memKey s.used_nonces (a, n) = true) :
    s.record_receipt c ts p bh a n e st th = .error .nonceReused := by
  simp [PayrollReceiptLogger.record_receipt, hc, hp, hm]

theorem log_receipt_run_record {s : PayrollReceiptLogger} {c : String}
    {ts : Nat} {p bh a : String} {n : Nat} {e st th : String}
    (hc : allowedCallerCheck s.allowed_caller c = true)
    (hp : lookupKey s.receipts p = none)
    (hm : memKey s.used_nonces (a, n) = false) :
    s.record_receipt c ts p bh a n e st th = .ok { s with
      receipts := (p,
        { payroll_id := p, batch_hash := bh, authorizer_id := a, nonce := n,
          executor_id := e, status := st, tx_refs_hash := th,
          timestamp_nanos := ts }) :: s.receipts,
      used_nonces := (a, n) :: s.used_nonces } := by
  simp [PayrollReceiptLogger.record_receipt, hc, hp, hm]

theorem allowedCallerCheck_ne {x c : String} (h : c ≠ x) :
    allowedCallerCheck (some x) c = false := by
  simp [allowedCallerCheck, h]

theorem allowedCallerCheck_none (c : String) :
    allowedCallerCheck none c = true := rfl

theorem allowedCallerCheck_self (x : String) :
    allowedCallerCheck (some x) x = true := by
  simp [allowedCallerCheck]

theorem att_apply_nonce_iff (s : PayrollAttestation) (op : AttOp)
    (a : String) (n : Nat) :
    (AttOp.apply s op).is_nonce_used a n = true ↔
      (s.is_nonce_used a n = true ∨ AttOp.spends s op a n) := by
  cases op with
  | payment c ts cid er com =>
    have hnon : (AttOp.apply s (.payment c ts cid er com)).used_receipt_nonces
        = s.used_receipt_nonces := by
      unfold AttOp.apply
      cases hr : AttOp.run s (.payment c ts cid er com) with
      | error e => rfl
      | ok s' => obtain ⟨-, -, -, hs⟩ := record_payment_ok_inv hr; rw [hs]
    unfold PayrollAttestation.is_nonce_used
    rw [hnon]
    simp [AttOp.spends]
  | setCaller c acc =>
    have hnon : (AttOp.apply s (.setCaller c acc)).used_receipt_nonces
        = s.used_receipt_nonces := by
      unfold AttOp.apply
      cases hr : AttOp.run s (.setCaller c acc) with
      | error e => rfl
      | ok s' => obtain ⟨-, hs⟩ := att_set_ok_inv hr; rw [hs]
    unfold PayrollAttestation.is_nonce_used
    rw [hnon]
    simp [AttOp.spends]
  | receipt c ts p bh a' n' e st th =>
    by_cases hc : allowedCallerCheck s.allowed_caller c = true
    · cases hp : lookupKey s.receipts p with
      | some r =>
        have happ : AttOp.apply s (.receipt c ts p bh a' n' e st th) = s := by
          simp [AttOp.apply, AttOp.run, att_receipt_run_silent hc hp]
        rw [happ]
        constructor
        · exact Or.inl
        · rintro (h | h)
          · exact h
          · obtain ⟨-, -, -, hfresh⟩ := h
            rw [hp] at hfresh
            exact Option.noConfusion hfresh
      | none =>
        by_cases hm : memKey s.used_receipt_nonces
            (PayrollAttestation.nonce_key a' n') = true
        · have happ : AttOp.apply s (.receipt c ts p bh a' n' e st th) = s := by
            simp [AttOp.apply, AttOp.run, att_receipt_run_nonce_reused hc hp hm]
          rw [happ]
          constructor
          · exact Or.inl
          · rintro (h | h)
            · exact h
            · obtain ⟨ha, hn, -, -⟩ := h
              subst ha; subst hn
              exact hm
        · have hm' : memKey s.used_receipt_nonces
              (PayrollAttestation.nonce_key a' n') = false :=
            eq_false_of_ne_true hm
          have happ : AttOp.apply s (.receipt c ts p bh a' n' e st th)
              = { s with
                  receipts := (p,
                    { payroll_id := p, batch_hash := bh, authorizer_id := a',
                      nonce := n', executor_id := e, status := st,
                      tx_refs_hash := th, timestamp_nanos := ts }) :: s.receipts,
                  used_receipt_nonces := PayrollAttestation.nonce_key a' n'
                    :: s.used_receipt_nonces } := by
            simp [AttOp.apply, AttOp.run, att_receipt_run_record hc hp hm']
          rw [happ]
          unfold PayrollAttestation.is_nonce_used
          rw [memKey_cons]
          by_cases hk : PayrollAttestation.nonce_key a' n'
              = PayrollAttestation.nonce_key a n
          · rw [if_pos hk]
            obtain ⟨ha, hn⟩ := nonce_key_inj hk
            constructor
            · intro _; exact Or.inr ⟨ha, hn, hc, hp⟩
            · intro _; rfl
          · rw [if_neg hk]
            constructor
            · exact Or.inl
            · rintro (h | h)
              · exact h
              · obtain ⟨ha, hn, -, -⟩ := h
                exact absurd (by rw [ha, hn]) hk
    · have hc' : allowedCallerCheck s.allowed_caller c = false :=
        eq_false_of_ne_true hc
      have happ : AttOp.apply s (.receipt c ts p bh a' n' e st th) = s := by
        simp [AttOp.apply, AttOp.run, att_receipt_run_unauthorized hc']
      rw [happ]
      constructor
      · exact Or.inl
      · rintro (h | h)
        · exact h
        · exact absurd h.2.2.1 hc

theorem log_apply_nonce_iff (s : PayrollReceiptLogger) (op : LogOp)
    (a : String) (n : Nat) :
    (LogOp.apply s op).is_nonce_used a n = true ↔
      (s.is_nonce_used a n = true ∨ LogOp.spends s op a n) := by
  cases op with
  | setCaller c acc =>
    have hnon : (LogOp.apply s (.setCaller c acc)).used_nonces = s.used_nonces := by
      unfold LogOp.apply
      cases hr : LogOp.run s (.setCaller c acc) with
      | error e => rfl
      | ok s' => obtain ⟨-, hs⟩ := log_set_ok_inv hr; rw [hs]
    unfold PayrollReceiptLogger.is_nonce_used
    rw [hnon]
    simp [LogOp.spends]
  | receipt c ts p bh a' n' e st th =>
    by_cases hc : allowedCallerCheck s.allowed_caller c = true
    · cases hp : lookupKey s.receipts p with
      | some r =>
        have happ : LogOp.apply s (.receipt c ts p bh a' n' e st th) = s := by
          simp [LogOp.apply, LogOp.run, log_receipt_run_duplicate hc hp]
        rw [happ]
        constructor
        · exact Or.inl
        · rintro (h | h)
          · exact h
          · obtain ⟨-, -, -, hfresh⟩ := h
            rw [hp] at hfresh
            exact Option.noConfusion hfresh
      | none =>
        by_cases hm : memKey s.used_nonces (a', n') = true
        · have happ : LogOp.apply s (.receipt c ts p bh a' n' e st th) = s := by
            simp [LogOp.apply, LogOp.run, log_receipt_run_nonce_reused hc hp hm]
          rw [happ]
          constructor
          · exact Or.inl
          · rintro (h | h)
            · exact h
            · obtain ⟨ha, hn, -, -⟩ := h
              subst ha; subst hn
              exact hm
        · have hm' : memKey s.used_nonces (a', n') = false :=
            eq_false_of_ne_true hm
          have happ : LogOp.apply s (.receipt c ts p bh a' n' e st th)
              = { s with
                  receipts := (p,
                    { payroll_id := p, batch_hash := bh, authorizer_id := a',
                      nonce := n', executor_id := e, status := st,
                      tx_refs_hash := th, timestamp_nanos := ts }) :: s.receipts,
                  used_nonces := (a', n') :: s.used_nonces } := by
            simp [LogOp.apply, LogOp.run, log_receipt_run_record hc hp hm']
          rw [happ]
          unfold PayrollReceiptLogger.is_nonce_used
          rw [memKey_cons]
          by_cases hk : (a', n') = (a, n)
          · rw [if_pos hk]
            have ha : a' = a := congrArg Prod.fst hk
            have hn : n' = n := congrArg Prod.snd hk
            constructor
            · intro _; exact Or.inr ⟨ha, hn, hc, hp⟩
            · intro _; rfl
          · rw [if_neg hk]
            constructor
            · exact Or.inl
            · rintro (h | h)
              · exact h
              · obtain ⟨ha, hn, -, -⟩ := h
                exact absurd (by rw [ha, hn]) hk
    · have hc' : allowedCallerCheck s.allowed_caller c = false :=
        eq_false_of_ne_true hc
      have happ : LogOp.apply s (.receipt c ts p bh a' n' e st th) = s := by
        simp [LogOp.apply, LogOp.run, log_receipt_run_unauthorized hc']
      rw [happ]
      constructor
      · exact Or.inl
      · rintro (h | h)
        · exact h
        · exact absurd h.2.2.1 hc

/-- C2: whenever `allowed_caller` is set to some identity `x`, every
`record_payment` or `record_receipt` call (in either contract) by an invoking
identity different from `x` fails with `Unauthorized`; and a failed call
leaves the entire store state unchanged (the host rolls back a panicking call,
modelled by `apply` returning the pre-state on `Except.error`). -/
theorem C2_unauthorized_no_change :
    (∀ (s : PayrollAttestation) (x c : String) (ts : Nat) (cid er : String)
        (com : List Nat),
        s.allowed_caller = some x → c ≠ x →
        s.record_payment c ts cid er com = .error .unauthorized)
  ∧ (∀ (s : PayrollAttestation) (x c : String) (ts : Nat) (p bh a : String)
        (n : Nat) (e st th : String),
        s.allowed_caller = some x → c ≠ x →
        s.record_receipt c ts p bh a n e st th = .error .unauthorized)
  ∧ (∀ (s : PayrollReceiptLogger) (x c : String) (ts : Nat) (p bh a : String)
        (n : Nat) (e st th : String),
        s.allowed_caller = some x → c ≠ x →
        s.record_receipt c ts p bh a n e st th = .error .unauthorized)
  ∧ (∀ (s : PayrollAttestation) (op : AttOp) (er : Err),
        AttOp.run s op = .error er → AttOp.apply s op = s)
  ∧ (∀ (s : PayrollReceiptLogger) (op : LogOp) (er : Err),
        LogOp.run s op = .error er → LogOp.apply s op = s) := by
  refine ⟨?_, ?_, ?_, ?_, ?_⟩
  · intro s x c ts cid er com hx hne
    have hc : allowedCallerCheck s.allowed_caller c = false := by
      rw [hx]; exact allowedCallerCheck_ne hne
    exact att_payment_run_unauthorized hc
  · intro s x c ts p bh a n e st th hx hne
    have hc : allowedCallerCheck s.allowed_caller c = false := by
      rw [hx]; exact allowedCallerCheck_ne hne
    exact att_receipt_run_unauthorized hc
  · intro s x c ts p bh a n e st th hx hne
    have hc : allowedCallerCheck s.allowed_caller c = false := by
      rw [hx]; exact allowedCallerCheck_ne hne
    exact log_receipt_run_unauthorized hc
  · intro s op er h
    simp [AttOp.apply, h]
  · intro s op er h
    simp [LogOp.apply, h]

/-- C2 witness: with `allowed_caller = "alice"`, calls from `"bob"` fail with
`Unauthorized` and leave the state unchanged, in both contracts. -/
theorem C2_unauthorized_no_change_witness :
    (PayrollAttestation.new "o" "alice").record_payment "bob" 1 "c1" "e1"
        (List.replicate 32 0) = .error .unauthorized
  ∧ (PayrollAttestation.new "o" "alice").record_receipt "bob" 1 "p1" "bh" "a" 1
        "e" "ok" "t1" = .error .unauthorized
  ∧ (PayrollReceiptLogger.new "o" (some "alice")).record_receipt "bob" 1 "p1"
        "bh" "a" 1 "e" "ok" "t1" = .error .unauthorized
  ∧ AttOp.apply (PayrollAttestation.new "o" "alice")
        (.payment "bob" 1 "c1" "e1" (List.replicate 32 0))
      = PayrollAttestation.new "o" "alice"
  ∧ LogOp.apply (PayrollReceiptLogger.new "o" (some "alice"))
        (.receipt "bob" 1 "p1" "bh" "a" 1 "e" "ok" "t1")
      = PayrollReceiptLogger.new "o" (some "alice") :=
  ⟨C2_unauthorized_no_change.1 _ "alice" _ 1 "c1" "e1" _ (by decide) (by decide),
   C2_unauthorized_no_change.2.1 _ "alice" _ 1 "p1" "bh" "a" 1 "e" "ok" "t1"
     (by decide) (by decide),
   C2_unauthorized_no_change.2.2.1 _ "alice" _ 1 "p1" "bh" "a" 1 "e" "ok" "t1"
     (by decide) (by decide),
   C2_unauthorized_no_change.2.2.2.1 _ _ .unauthorized (by decide),
   C2_unauthorized_no_change.2.2.2.2 _ _ .unauthorized (by decide)⟩

/-- C4: with the access check passing (in particular whenever `allowed_caller`
is unset), `record_payment` with a commitment whose length is not 32 fails
with `InvalidCommitment`, for every caller and all other arguments, and the
store is unchanged. -/
theorem C4_invalid_commitment :
    (∀ (s : PayrollAttestation) (c : String) (ts : Nat) (cid er : String)
        (com : List Nat),
        allowedCallerCheck s.allowed_caller c = true → com.length ≠ 32 →
        s.record_payment c ts cid er com = .error .invalidCommitment)
  ∧ (∀ (s : PayrollAttestation) (c : String) (ts : Nat) (cid er : String)
        (com : List Nat),
        allowedCallerCheck s.allowed_caller c = true → com.length ≠ 32 →
        AttOp.apply s (.payment c ts cid er com) = s) := by
  constructor
  · intro s c ts cid er com hc hl
    exact att_payment_run_invalid hc hl
  · intro s c ts cid er com hc hl
    simp [AttOp.apply, AttOp.run, att_payment_run_invalid hc hl]

/-- C4 witness: a 1-byte commitment is rejected with `InvalidCommitment` on a
store already holding a record, with no state change. -/
theorem C4_invalid_commitment_witness :
    attSpay.record_payment "x" 8 "c2" "e2" [0] = .error .invalidCommitment
  ∧ AttOp.apply attSpay (.payment "x" 8 "c2" "e2" [0]) = attSpay :=
  ⟨C4_invalid_commitment.1 attSpay "x" 8 "c2" "e2" [0] (by decide) (by decide),
   C4_invalid_commitment.2 attSpay "x" 8 "c2" "e2" [0] (by decide) (by decide)⟩

/-- C8: for every state, authorized caller and 32-byte commitment with a fresh
`claim_id`, `record_payment` succeeds and `get_payment` then returns exactly
the attestation built from the arguments, with the commitment bytes unchanged
and the environment timestamp supplied at write time. -/
theorem C8_record_then_get :
    ∀ (s : PayrollAttestation) (c : String) (ts : Nat) (cid er : String)
      (com : List Nat),
      allowedCallerCheck s.allowed_caller c = true → com.length = 32 →
      lookupKey s.payments cid = none →
      ∃ s', s.record_payment c ts cid er com = .ok s' ∧
        s'.get_payment cid = some
          { claim_id := cid, execution_ref := er, commitment := com,
            timestamp_nanos := ts } := by
  intro s c ts cid er com hc hl hf
  refine ⟨_, att_payment_run_ok hc hl hf, ?_⟩
  unfold PayrollAttestation.get_payment
  rw [lookupKey_cons, if_pos rfl]

/-- C8 witness: recording a concrete 32-byte commitment on a fresh store and
reading it back returns exactly the stored fields. -/
theorem C8_record_then_get_witness :
    ∃ s', (PayrollAttestation.new "o" "").record_payment "x" 7 "c1" "e1"
        (List.replicate 32 0) = .ok s'
      ∧ s'.get_payment "c1" = some
          { claim_id := "c1", execution_ref := "e1",
            commitment := List.replicate 32 0, timestamp_nanos := 7 } :=
  C8_record_then_get (PayrollAttestation.new "o" "") "x" 7 "c1" "e1"
    (List.replicate 32 0) (by decide) (by decide) (by decide)

/-- C3 counterexample: the claim says a second `record_payment` with an
already-recorded `claim_id` fails with `DuplicateClaim` for ANY commitment.
But the 32-byte length check runs before the duplicate check
(lib.rs:87-95), so a second call with an empty commitment fails with
`InvalidCommitment` instead. -/
theorem C3_counterexample :
    (PayrollAttestation.new "o" "").record_payment "x" 7 "c1" "e1"
        (List.replicate 32 0) = Except.ok attSpay
  ∧ attSpay.record_payment "x" 8 "c1" "e2" [] = Except.error Err.invalidCommitment
  ∧ Err.invalidCommitment ≠ Err.duplicateClaim := by
  refine ⟨by decide, by decide, by decide⟩

/-- C3 (amended): a second `record_payment` with an already-recorded
`claim_id`, from a caller passing the access check and with a 32-byte
commitment, fails with `DuplicateClaim`, and the store retains exactly the
first record for that `claim_id`. -/
theorem C3_amended_duplicate_claim :
    ∀ (s s1 : PayrollAttestation) (c : String) (ts : Nat) (cid er : String)
      (com : List Nat),
      s.record_payment c ts cid er com = .ok s1 →
      ∀ (c2 : String) (ts2 : Nat) (er2 : String) (com2 : List Nat),
        allowedCallerCheck s1.allowed_caller c2 = true → com2.length = 32 →
        s1.record_payment c2 ts2 cid er2 com2 = .error .duplicateClaim
        ∧ s1.get_payment cid = some
            { claim_id := cid, execution_ref := er, commitment := com,
              timestamp_nanos := ts } := by
  intro s s1 c ts cid er com hok c2 ts2 er2 com2 hc2 hl2
  obtain ⟨-, -, -, hs1⟩ := record_payment_ok_inv hok
  have hd : lookupKey s1.payments cid = some
      { claim_id := cid, execution_ref := er, commitment := com,
        timestamp_nanos := ts } := by
    rw [hs1, lookupKey_cons, if_pos rfl]
  exact ⟨att_payment_run_duplicate hc2 hl2 hd, hd⟩

/-- C3 amended witness: replaying claim `"c1"` with a fresh 32-byte commitment
fails with `DuplicateClaim` and the first record is retained. -/
theorem C3_amended_duplicate_claim_witness :
    attSpay.record_payment "y" 9 "c1" "e9" (List.replicate 32 1)
        = .error .duplicateClaim
  ∧ attSpay.get_payment "c1" = some
      { claim_id := "c1", execution_ref := "e1",
        commitment := List.replicate 32 0, timestamp_nanos := 7 } :=
  C3_amended_duplicate_claim (PayrollAttestation.new "o" "") attSpay "x" 7 "c1"
    "e1" (List.replicate 32 0) (by decide) "y" 9 "e9" (List.replicate 32 1)
    (by decide) (by decide)

/-- C1 counterexample: the claim says that after a successful `record_receipt`
with `(authorizer_id, nonce) = ("a", 1)`, EVERY later call with that pair
fails with `NonceReused`, even when its `payroll_id` already has a receipt.
In the attestation contract the silent-idempotent early return
(lib.rs:142-144) runs BEFORE the nonce check (lib.rs:145-148), so replaying
the pair with the already-recorded `payroll_id` `"p1"` succeeds silently
instead of failing. -/
theorem C1_counterexample :
    (PayrollAttestation.new "o" "").record_receipt "c" 5 "p1" "bh" "a" 1 "e"
        "ok" "t1" = Except.ok attS1
  ∧ attS1.record_receipt "c" 6 "p1" "bh2" "a" 1 "e2" "ok" "t2"
      = Except.ok attS1 := by
  refine ⟨by decide, by decide⟩

/-- C1 (amended): after one successful `record_receipt` that actually records
using `(a, n)` (in the attestation contract: one whose `payroll_id` was
fresh; every logger success records), every subsequent `record_receipt`
using the same pair, from a caller passing the access check and with a
`payroll_id` that has no receipt yet, fails with `NonceReused` — in both
contracts, even with a different `payroll_id`.  (When the `payroll_id`
already has a receipt the attestation contract instead returns silently and
the logger fails with `DuplicateReceipt`.) -/
theorem C1_amended_nonce_reused :
    (∀ (s s' : PayrollAttestation) (c : String) (ts : Nat) (p bh a : String)
        (n : Nat) (e st th : String),
        lookupKey s.receipts p = none →
        s.record_receipt c ts p bh a n e st th = .ok s' →
        ∀ (c2 : String) (ts2 : Nat) (p2 bh2 : String) (e2 st2 th2 : String),
          allowedCallerCheck s'.allowed_caller c2 = true →
          lookupKey s'.receipts p2 = none →
          s'.record_receipt c2 ts2 p2 bh2 a n e2 st2 th2 = .error .nonceReused)
  ∧ (∀ (s s' : PayrollReceiptLogger) (c : String) (ts : Nat) (p bh a : String)
        (n : Nat) (e st th : String),
        s.record_receipt c ts p bh a n e st th = .ok s' →
        ∀ (c2 : String) (ts2 : Nat) (p2 bh2 : String) (e2 st2 th2 : String),
          allowedCallerCheck s'.allowed_caller c2 = true →
          lookupKey s'.receipts p2 = none →
          s'.record_receipt c2 ts2 p2 bh2 a n e2 st2 th2 = .error .nonceReused) := by
  constructor
  · intro s s' c ts p bh a n e st th hfresh hok c2 ts2 p2 bh2 e2 st2 th2 hc2 hp2
    obtain ⟨-, hcase⟩ := att_receipt_ok_inv hok
    rcases hcase with ⟨hdup, -⟩ | ⟨-, -, hs⟩
    · rw [hfresh] at hdup
      exact absurd hdup (by decide)
    · have hm : memKey s'.used_receipt_nonces
          (PayrollAttestation.nonce_key a n) = true := by
        rw [hs, memKey_cons, if_pos rfl]
      exact att_receipt_run_nonce_reused hc2 hp2 hm
  · intro s s' c ts p bh a n e st th hok c2 ts2 p2 bh2 e2 st2 th2 hc2 hp2
    obtain ⟨-, -, -, hs⟩ := log_receipt_ok_inv hok
    have hm : memKey s'.used_nonces (a, n) = true := by
      rw [hs, memKey_cons, if_pos rfl]
    exact log_receipt_run_nonce_reused hc2 hp2 hm

/-- C1 amended witness: after recording `"p1"` with pair `("a", 1)`, a call
with the same pair and fresh `payroll_id` `"p2"` fails with `NonceReused` in
both contracts. -/
theorem C1_amended_nonce_reused_witness :
    attS1.record_receipt "c2" 9 "p2" "bh2" "a" 1 "e2" "ok" "t2"
        = .error .nonceReused
  ∧ logS1.record_receipt "c2" 9 "p2" "bh2" "a" 1 "e2" "ok" "t2"
        = .error .nonceReused :=
  ⟨C1_amended_nonce_reused.1 (PayrollAttestation.new "o" "") attS1 "c" 5 "p1"
      "bh" "a" 1 "e" "ok" "t1" (by decide) (by decide) "c2" 9 "p2" "bh2" "e2"
      "ok" "t2" (by decide) (by decide),
   C1_amended_nonce_reused.2 (PayrollReceiptLogger.new "o" none) logS1 "c" 5
      "p1" "bh" "a" 1 "e" "ok" "t1" (by decide) "c2" 9 "p2" "bh2" "e2" "ok"
      "t2" (by decide) (by decide)⟩

/-- C6 counterexample: the claim says every successful `record_receipt`
inserts the `ReceiptRecord` with the current timestamp and inserts the nonce
key (both applied).  In the attestation contract, a call whose `payroll_id`
already has a receipt succeeds silently (lib.rs:142-144) while applying
NEITHER insert: here the call at timestamp 99 with the unspent pair
`("a", 2)` returns success, yet `("a", 2)` is still unused and the stored
receipt keeps its original timestamp 5. -/
theorem C6_counterexample :
    (PayrollAttestation.new "o" "").record_receipt "c" 5 "p1" "bh" "a" 1 "e"
        "ok" "t1" = Except.ok attS1
  ∧ attS1.record_receipt "c" 99 "p1" "bh2" "a" 2 "e2" "ok" "t2"
      = Except.ok attS1
  ∧ attS1.is_nonce_used "a" 2 = false
  ∧ attS1.get_receipt "p1" = some
      { payroll_id := "p1", batch_hash := "bh", authorizer_id := "a",
        nonce := 1, executor_id := "e", status := "ok", tx_refs_hash := "t1",
        timestamp_nanos := 5 } := by
  refine ⟨by decide, by decide, by decide, by decide⟩

/-- C6 (amended): `record_receipt` is atomic with respect to its own success
or failure.  A success either records — inserting the `ReceiptRecord` with
the current timestamp and the nonce-ledger key together — or, in the
attestation contract's silent-idempotent path only, changes nothing at all;
every logger success records.  On any failure (`Unauthorized`,
`DuplicateReceipt` in the strict variant, `NonceReused`) neither the
receipts map nor the nonce ledger (nor anything else) is mutated. -/
theorem C6_amended_atomicity :
    (∀ (s s' : PayrollAttestation) (c : String) (ts : Nat) (p bh a : String)
        (n : Nat) (e st th : String),
        s.record_receipt c ts p bh a n e st th = .ok s' →
        ((lookupKey s.receipts p).isSome = true ∧ s' = s) ∨
        (lookupKey s.receipts p = none ∧
         s' = { s with
           receipts := (p,
             { payroll_id := p, batch_hash := bh, authorizer_id := a,
               nonce := n, executor_id := e, status := st, tx_refs_hash := th,
               timestamp_nanos := ts }) :: s.receipts,
           used_receipt_nonces :=
             PayrollAttestation.nonce_key a n :: s.used_receipt_nonces }))
  ∧ (∀ (s : PayrollAttestation) (c : String) (ts : Nat) (p bh a : String)
        (n : Nat) (e st th : String) (er : Err),
        s.record_receipt c ts p bh a n e st th = .error er →
        AttOp.apply s (.receipt c ts p bh a n e st th) = s)
  ∧ (∀ (s s' : PayrollReceiptLogger) (c : String) (ts : Nat) (p bh a : String)
        (n : Nat) (e st th : String),
        s.record_receipt c ts p bh a n e st th = .ok s' →
        s' = { s with
          receipts := (p,
            { payroll_id := p, batch_hash := bh, authorizer_id := a,
              nonce := n, executor_id := e, status := st, tx_refs_hash := th,
              timestamp_nanos := ts }) :: s.receipts,
          used_nonces := (a, n) :: s.used_nonces })
  ∧ (∀ (s : PayrollReceiptLogger) (c : String) (ts : Nat) (p bh a : String)
        (n : Nat) (e st th : String) (er : Err),
        s.record_receipt c ts p bh a n e st th = .error er →
        LogOp.apply s (.receipt c ts p bh a n e st th) = s) := by
  refine ⟨?_, ?_, ?_, ?_⟩
  · intro s s' c ts p bh a n e st th hok
    obtain ⟨-, hcase⟩ := att_receipt_ok_inv hok
    rcases hcase with ⟨hp, hs⟩ | ⟨hp, -, hs⟩
    · exact Or.inl ⟨hp, hs⟩
    · exact Or.inr ⟨hp, hs⟩
  · intro s c ts p bh a n e st th er h
    simp [AttOp.apply, AttOp.run, h]
  · intro s s' c ts p bh a n e st th hok
    obtain ⟨-, -, -, hs⟩ := log_receipt_ok_inv hok
    exact hs
  · intro s c ts p bh a n e st th er h
    simp [LogOp.apply, LogOp.run, h]

/-- C6 amended witness: a recording success applies both inserts; a
`NonceReused` failure leaves the state untouched, in both contracts. -/
theorem C6_amended_atomicity_witness :
    (((lookupKey (PayrollAttestation.new "o" "").receipts "p1").isSome = true
        ∧ attS1 = PayrollAttestation.new "o" "") ∨
     (lookupKey (PayrollAttestation.new "o" "").receipts "p1" = none ∧
      attS1 = { PayrollAttestation.new "o" "" with
        receipts := [("p1",
          { payroll_id := "p1", batch_hash := "bh", authorizer_id := "a",
            nonce := 1, executor_id := "e", status := "ok",
            tx_refs_hash := "t1", timestamp_nanos := 5 })],
        used_receipt_nonces := ["a::1"] }))
  ∧ AttOp.apply attS1 (.receipt "c2" 9 "p2" "bh2" "a" 1 "e2" "ok" "t2") = attS1
  ∧ logS1 = { PayrollReceiptLogger.new "o" none with
      receipts := [("p1",
        { payroll_id := "p1", batch_hash := "bh", authorizer_id := "a",
          nonce := 1, executor_id := "e", status := "ok", tx_refs_hash := "t1",
          timestamp_nanos := 5 })],
      used_nonces := [("a", 1)] }
  ∧ LogOp.apply logS1 (.receipt "c2" 9 "p2" "bh2" "a" 1 "e2" "ok" "t2") = logS1 :=
  ⟨C6_amended_atomicity.1 (PayrollAttestation.new "o" "") attS1 "c" 5 "p1" "bh"
      "a" 1 "e" "ok" "t1" (by decide),
   C6_amended_atomicity.2.1 attS1 "c2" 9 "p2" "bh2" "a" 1 "e2" "ok" "t2"
      .nonceReused (by decide),
   C6_amended_atomicity.2.2.1 (PayrollReceiptLogger.new "o" none) logS1 "c" 5
      "p1" "bh" "a" 1 "e" "ok" "t1" (by decide),
   C6_amended_atomicity.2.2.2 logS1 "c2" 9 "p2" "bh2" "a" 1 "e2" "ok" "t2"
      .nonceReused (by decide)⟩

/-- C5: `set_allowed_caller` by any identity other than `owner_id` fails with
`Unauthorized`; by `owner_id` it always succeeds and unconditionally replaces
`allowed_caller` with the given value (including clearing it to `None`);
access checks of subsequent `record_payment` / `record_receipt` calls use the
new value; and no operation ever changes `owner_id`.  Both contracts. -/
theorem C5_set_allowed_caller :
    (∀ (s : PayrollAttestation) (c : String) (acc : Option String),
        c ≠ s.owner_id → s.set_allowed_caller c acc = .error .unauthorized)
  ∧ (∀ (s : PayrollAttestation) (acc : Option String),
        s.set_allowed_caller s.owner_id acc = .ok { s with allowed_caller := acc })
  ∧ (∀ (s s' : PayrollAttestation) (y : String),
        s.set_allowed_caller s.owner_id (some y) = .ok s' →
        (∀ (z : String) (ts : Nat) (cid er : String) (com : List Nat), z ≠ y →
          s'.record_payment z ts cid er com = .error .unauthorized)
        ∧ (∀ (ts : Nat) (cid er : String) (com : List Nat),
          s'.record_payment y ts cid er com ≠ .error .unauthorized)
        ∧ (∀ (z : String) (ts : Nat) (p bh a : String) (n : Nat)
            (e st th : String), z ≠ y →
          s'.record_receipt z ts p bh a n e st th = .error .unauthorized)
        ∧ (∀ (ts : Nat) (p bh a : String) (n : Nat) (e st th : String),
          s'.record_receipt y ts p bh a n e st th ≠ .error .unauthorized))
  ∧ (∀ (s : PayrollAttestation) (op : AttOp),
        (AttOp.apply s op).owner_id = s.owner_id)
  ∧ (∀ (s : PayrollReceiptLogger) (c : String) (acc : Option String),
        c ≠ s.owner_id → s.set_allowed_caller c acc = .error .unauthorized)
  ∧ (∀ (s : PayrollReceiptLogger) (acc : Option String),
        s.set_allowed_caller s.owner_id acc = .ok { s with allowed_caller := acc })
  ∧ (∀ (s s' : PayrollReceiptLogger) (y : String),
        s.set_allowed_caller s.owner_id (some y) = .ok s' →
        (∀ (z : String) (ts : Nat) (p bh a : String) (n : Nat)
            (e st th : String), z ≠ y →
          s'.record_receipt z ts p bh a n e st th = .error .unauthorized)
        ∧ (∀ (ts : Nat) (p bh a : String) (n : Nat) (e st th : String),
          s'.record_receipt y ts p bh a n e st th ≠ .error .unauthorized))
  ∧ (∀ (s : PayrollReceiptLogger) (op : LogOp),
        (LogOp.apply s op).owner_id = s.owner_id) := by
  refine ⟨?_, ?_, ?_, att_apply_owner, ?_, ?_, ?_, log_apply_owner⟩
  · intro s c acc hne
    unfold PayrollAttestation.set_allowed_caller
    rw [if_neg hne]
  · intro s acc
    unfold PayrollAttestation.set_allowed_caller
    rw [if_pos rfl]
  · intro s s' y hok
    obtain ⟨-, hs⟩ := att_set_ok_inv hok
    have hac : s'.allowed_caller = some y := by rw [hs]
    refine ⟨?_, ?_, ?_, ?_⟩
    · intro z ts cid er com hz
      exact att_payment_run_unauthorized (by rw [hac]; exact allowedCallerCheck_ne hz)
    · intro ts cid er com hx
      have hc : allowedCallerCheck s'.allowed_caller y = true := by
        rw [hac]; exact allowedCallerCheck_self y
      unfold PayrollAttestation.record_payment at hx
      rw [if_pos hc] at hx
      split at hx
      · split at hx
        · exact absurd (Except.error.inj hx) (by decide)
        · exact Except.noConfusion hx
      · exact absurd (Except.error.inj hx) (by decide)
    · intro z ts p bh a n e st th hz
      exact att_receipt_run_unauthorized (by rw [hac]; exact allowedCallerCheck_ne hz)
    · intro ts p bh a n e st th hx
      have hc : allowedCallerCheck s'.allowed_caller y = true := by
        rw [hac]; exact allowedCallerCheck_self y
      unfold PayrollAttestation.record_receipt at hx
      rw [if_pos hc] at hx
      split at hx
      · exact Except.noConfusion hx
      · split at hx
        · exact absurd (Except.error.inj hx) (by decide)
        · exact Except.noConfusion hx
  · intro s c acc hne
    unfold PayrollReceiptLogger.set_allowed_caller
    rw [if_neg hne]
  · intro s acc
    unfold PayrollReceiptLogger.set_allowed_caller
    rw [if_pos rfl]
  · intro s s' y hok
    obtain ⟨-, hs⟩ := log_set_ok_inv hok
    have hac : s'.allowed_caller = some y := by rw [hs]
    constructor
    · intro z ts p bh a n e st th hz
      exact log_receipt_run_unauthorized (by rw [hac]; exact allowedCallerCheck_ne hz)
    · intro ts p bh a n e st th hx
      have hc : allowedCallerCheck s'.allowed_caller y = true := by
        rw [hac]; exact allowedCallerCheck_self y
      unfold PayrollReceiptLogger.record_receipt at hx
      rw [if_pos hc] at hx
      split at hx
      · exact absurd (Except.error.inj hx) (by decide)
      · split at hx
        · exact absurd (Except.error.inj hx) (by decide)
        · exact Except.noConfusion hx

/-- C5 witness: non-owner rotation fails; owner rotation succeeds, and the new
allowed caller is what subsequent access checks use; `owner_id` survives an
operation.  Both contracts. -/
theorem C5_set_allowed_caller_witness :
    attS1.set_allowed_caller "eve" (some "y") = .error .unauthorized
  ∧ attS1.set_allowed_caller "o" (some "y")
      = .ok { attS1 with allowed_caller := some "y" }
  ∧ { attS1 with allowed_caller := some "y" }.record_payment "z" 3 "c9" "e9"
      (List.replicate 32 0) = .error .unauthorized
  ∧ { attS1 with allowed_caller := some "y" }.record_payment "y" 3 "c9" "e9"
      (List.replicate 32 0) ≠ .error .unauthorized
  ∧ (AttOp.apply attS1 (.setCaller "o" (some "y"))).owner_id = attS1.owner_id
  ∧ logS1.set_allowed_caller "eve" (some "y") = .error .unauthorized
  ∧ logS1.set_allowed_caller "o" (some "y")
      = .ok { logS1 with allowed_caller := some "y" }
  ∧ { logS1 with allowed_caller := some "y" }.record_receipt "z" 3 "p9" "bh" "a"
      9 "e" "ok" "t" = .error .unauthorized
  ∧ { logS1 with allowed_caller := some "y" }.record_receipt "y" 3 "p9" "bh" "a"
      9 "e" "ok" "t" ≠ .error .unauthorized
  ∧ (LogOp.apply logS1 (.setCaller "o" (some "y"))).owner_id = logS1.owner_id :=
  ⟨C5_set_allowed_caller.1 attS1 "eve" (some "y") (by decide),
   C5_set_allowed_caller.2.1 attS1 (some "y"),
   (C5_set_allowed_caller.2.2.1 attS1 _ "y" (C5_set_allowed_caller.2.1 attS1
      (some "y"))).1 "z" 3 "c9" "e9" (List.replicate 32 0) (by decide),
   (C5_set_allowed_caller.2.2.1 attS1 _ "y" (C5_set_allowed_caller.2.1 attS1
      (some "y"))).2.1 3 "c9" "e9" (List.replicate 32 0),
   C5_set_allowed_caller.2.2.2.1 attS1 (.setCaller "o" (some "y")),
   C5_set_allowed_caller.2.2.2.2.1 logS1 "eve" (some "y") (by decide),
   C5_set_allowed_caller.2.2.2.2.2.1 logS1 (some "y"),
   (C5_set_allowed_caller.2.2.2.2.2.2.1 logS1 _ "y"
      (C5_set_allowed_caller.2.2.2.2.2.1 logS1 (some "y"))).1 "z" 3 "p9" "bh"
      "a" 9 "e" "ok" "t" (by decide),
   (C5_set_allowed_caller.2.2.2.2.2.2.1 logS1 _ "y"
      (C5_set_allowed_caller.2.2.2.2.2.1 logS1 (some "y"))).2 3 "p9" "bh" "a" 9
      "e" "ok" "t",
   C5_set_allowed_caller.2.2.2.2.2.2.2 logS1 (.setCaller "o" (some "y"))⟩

/-- C7: attestations and receipts are immutable and permanent.  Along every
sequence of operations, an existing `PaymentAttestation` or `ReceiptRecord`
is still present and unmodified afterwards (so `absent → recorded` is
one-way and terminal for each key), and a spent `(authorizer_id, nonce)`
pair stays spent (so `unused → spent` is one-way and terminal).  Both
contracts. -/
theorem C7_immutable_permanent :
    (∀ (s : PayrollAttestation) (ops : List AttOp) (cid : String)
        (r : PaymentAttestation),
        s.get_payment cid = some r →
        (AttOp.applyAll s ops).get_payment cid = some r)
  ∧ (∀ (s : PayrollAttestation) (ops : List AttOp) (p : String)
        (r : ReceiptRecord),
        s.get_receipt p = some r → (AttOp.applyAll s ops).get_receipt p = some r)
  ∧ (∀ (s : PayrollAttestation) (ops : List AttOp) (a : String) (n : Nat),
        s.is_nonce_used a n = true →
        (AttOp.applyAll s ops).is_nonce_used a n = true)
  ∧ (∀ (s : PayrollReceiptLogger) (ops : List LogOp) (p : String) (r : Receipt),
        s.get_receipt p = some r → (LogOp.applyAll s ops).get_receipt p = some r)
  ∧ (∀ (s : PayrollReceiptLogger) (ops : List LogOp) (a : String) (n : Nat),
        s.is_nonce_used a n = true →
        (LogOp.applyAll s ops).is_nonce_used a n = true) := by
  refine ⟨?_, ?_, ?_, ?_, ?_⟩
  · intro s ops cid r h
    exact att_applyAll_payment_mono h
  · intro s ops p r h
    exact att_applyAll_receipt_mono h
  · intro s ops a n h
    exact att_applyAll_nonce_mono h
  · intro s ops p r h
    exact log_applyAll_receipt_mono h
  · intro s ops a n h
    exact log_applyAll_nonce_mono h

/-- C7 witness: a stored payment, a stored receipt and a spent nonce survive a
concrete batch of later operations unchanged, in both contracts. -/
theorem C7_immutable_permanent_witness :
    (AttOp.applyAll attSpay [.payment "x" 9 "c2" "e2" (List.replicate 32 1),
        .setCaller "o" (some "w")]).get_payment "c1" = some
      { claim_id := "c1", execution_ref := "e1",
        commitment := List.replicate 32 0, timestamp_nanos := 7 }
  ∧ (AttOp.applyAll attS1 [.receipt "c" 9 "p2" "b2" "a" 2 "e" "ok" "t2",
        .receipt "c" 10 "p1" "b3" "a" 3 "e" "ok" "t3"]).get_receipt "p1" = some
      { payroll_id := "p1", batch_hash := "bh", authorizer_id := "a",
        nonce := 1, executor_id := "e", status := "ok", tx_refs_hash := "t1",
        timestamp_nanos := 5 }
  ∧ (AttOp.applyAll attS1 [.receipt "c" 9 "p2" "b2" "a" 2 "e" "ok" "t2"]
      ).is_nonce_used "a" 1 = true
  ∧ (LogOp.applyAll logS1 [.receipt "c" 9 "p2" "b2" "a" 2 "e" "ok" "t2"]
      ).get_receipt "p1" = some
      { payroll_id := "p1", batch_hash := "bh", authorizer_id := "a",
        nonce := 1, executor_id := "e", status := "ok", tx_refs_hash := "t1",
        timestamp_nanos := 5 }
  ∧ (LogOp.applyAll logS1 [.receipt "c" 9 "p2" "b2" "a" 2 "e" "ok" "t2"]
      ).is_nonce_used "a" 1 = true :=
  ⟨C7_immutable_permanent.1 attSpay _ "c1" _ (by decide),
   C7_immutable_permanent.2.1 attS1 _ "p1" _ (by decide),
   C7_immutable_permanent.2.2.1 attS1 _ "a" 1 (by decide),
   C7_immutable_permanent.2.2.2.1 logS1 _ "p1" _ (by decide),
   C7_immutable_permanent.2.2.2.2 logS1 _ "a" 1 (by decide)⟩

/-- C9: `is_nonce_used (a, n)` is `false` in the freshly constructed store and
in every state reached before a successful recording `record_receipt` call
used `(a, n)`, and `true` in every state reached after one.  The step
characterization (the `↔` conjuncts) shows the flag flips to `true` exactly at
a call that spends the pair (`AttOp.spends` / `LogOp.spends` require
`authorizer_id = a` and `nonce = n`), so no call with a different pair
`(a', n') ≠ (a, n)` — and no failed or silently idempotent call — can ever set
it; for the attestation contract's string-keyed ledger this rests on the
injectivity of the `"a::n"` key (`nonce_key_inj`).  The last conjunct of each
half shows `true` persists over every later sequence of operations. -/
theorem C9_is_nonce_used :
    (∀ (o ac a : String) (n : Nat),
        (PayrollAttestation.new o ac).is_nonce_used a n = false)
  ∧ (∀ (s : PayrollAttestation) (op : AttOp) (a : String) (n : Nat),
        (AttOp.apply s op).is_nonce_used a n = true ↔
          (s.is_nonce_used a n = true ∨ AttOp.spends s op a n))
  ∧ (∀ (s : PayrollAttestation) (ops : List AttOp) (a : String) (n : Nat),
        s.is_nonce_used a n = true →
        (AttOp.applyAll s ops).is_nonce_used a n = true)
  ∧ (∀ (o : String) (ac : Option String) (a : String) (n : Nat),
        (PayrollReceiptLogger.new o ac).is_nonce_used a n = false)
  ∧ (∀ (s : PayrollReceiptLogger) (op : LogOp) (a : String) (n : Nat),
        (LogOp.apply s op).is_nonce_used a n = true ↔
          (s.is_nonce_used a n = true ∨ LogOp.spends s op a n))
  ∧ (∀ (s : PayrollReceiptLogger) (ops : List LogOp) (a : String) (n : Nat),
        s.is_nonce_used a n = true →
        (LogOp.applyAll s ops).is_nonce_used a n = true) := by
  refine ⟨?_, att_apply_nonce_iff, ?_, ?_, log_apply_nonce_iff, ?_⟩
  · intro o ac a n; rfl
  · intro s ops a n h
    exact att_applyAll_nonce_mono h
  · intro o ac a n; rfl
  · intro s ops a n h
    exact log_applyAll_nonce_mono h

/-- C9 witness: spending `("a", 1)` makes `is_nonce_used "a" 1` true via the
step characterization, a call with the other pair `("a", 2)` leaves it false,
and it stays true under further operations; in both contracts. -/
theorem C9_is_nonce_used_witness :
    (AttOp.apply (PayrollAttestation.new "o" "")
        (.receipt "c" 5 "p1" "bh" "a" 1 "e" "ok" "t1")).is_nonce_used "a" 1 = true
  ∧ ¬ (AttOp.apply (PayrollAttestation.new "o" "")
        (.receipt "c" 5 "p1" "bh" "a" 2 "e" "ok" "t1")).is_nonce_used "a" 1 = true
  ∧ (AttOp.applyAll attS1 [.receipt "c" 9 "p2" "b2" "a" 2 "e" "ok" "t2"]
      ).is_nonce_used "a" 1 = true
  ∧ (LogOp.apply (PayrollReceiptLogger.new "o" none)
        (.receipt "c" 5 "p1" "bh" "a" 1 "e" "ok" "t1")).is_nonce_used "a" 1 = true
  ∧ (LogOp.applyAll logS1 [.receipt "c" 9 "p2" "b2" "a" 2 "e" "ok" "t2"]
      ).is_nonce_used "a" 1 = true :=
  ⟨(C9_is_nonce_used.2.1 (PayrollAttestation.new "o" "")
      (.receipt "c" 5 "p1" "bh" "a" 1 "e" "ok" "t1") "a" 1).mpr
      (Or.inr ⟨rfl, rfl, by decide, by decide⟩),
   fun hx => by
     rcases (C9_is_nonce_used.2.1 (PayrollAttestation.new "o" "")
        (.receipt "c" 5 "p1" "bh" "a" 2 "e" "ok" "t1") "a" 1).mp hx with h | h
     · exact absurd h (by decide)
     · exact absurd h.2.1 (by decide),
   C9_is_nonce_used.2.2.1 attS1 _ "a" 1 (by decide),
   (C9_is_nonce_used.2.2.2.2.1 (PayrollReceiptLogger.new "o" none)
      (.receipt "c" 5 "p1" "bh" "a" 1 "e" "ok" "t1") "a" 1).mpr
      (Or.inr ⟨rfl, rfl, by decide, by decide⟩),
   C9_is_nonce_used.2.2.2.2.2 logS1 _ "a" 1 (by decide)⟩

/-- C10: the two constructors treat an empty `allowed_caller` differently.
`PayrollAttestation::new` maps the empty string to `None`, so that store is
unrestricted (every caller passes the access check) while a non-empty string
is stored as `Some`.  `PayrollReceiptLogger::new` stores its
`Option<String>` argument verbatim, so `Some("")` stays `Some("")` and every
`record_receipt` from a caller with a non-empty identity then fails the
access check with `Unauthorized`: the empty string is restrictive, not
unrestricted, in that variant. -/
theorem C10_constructor_empty_caller :
    (∀ o : String, (PayrollAttestation.new o "").allowed_caller = none)
  ∧ (∀ o c : String,
        allowedCallerCheck (PayrollAttestation.new o "").allowed_caller c = true)
  ∧ (∀ o s : String, s ≠ "" →
        (PayrollAttestation.new o s).allowed_caller = some s)
  ∧ (∀ (o : String) (x : Option String),
        (PayrollReceiptLogger.new o x).allowed_caller = x)
  ∧ (∀ (o c : String) (ts : Nat) (p bh a : String) (n : Nat)
        (e st th : String), c ≠ "" →
        (PayrollReceiptLogger.new o (some "")).record_receipt c ts p bh a n e
          st th = .error .unauthorized) := by
  refine ⟨?_, ?_, ?_, ?_, ?_⟩
  · intro o; rfl
  · intro o c; rfl
  · intro o s h
    unfold PayrollAttestation.new
    simp [h]
  · intro o x; rfl
  · intro o c ts p bh a n e st th h
    exact log_receipt_run_unauthorized (allowedCallerCheck_ne h)

/-- C10 witness: `PayrollAttestation::new` with `""` is unrestricted and with
`"x"` stores `Some "x"`; `PayrollReceiptLogger::new` keeps `Some ""`, which
then rejects the non-empty caller `"bob"`. -/
theorem C10_constructor_empty_caller_witness :
    (PayrollAttestation.new "o" "").allowed_caller = none
  ∧ allowedCallerCheck (PayrollAttestation.new "o" "").allowed_caller "bob" = true
  ∧ (PayrollAttestation.new "o" "x").allowed_caller = some "x"
  ∧ (PayrollReceiptLogger.new "o" (some "")).allowed_caller = some ""
  ∧ (PayrollReceiptLogger.new "o" (some "")).record_receipt "bob" 1 "p1" "bh"
      "a" 1 "e" "ok" "t1" = .error .unauthorized :=
  ⟨C10_constructor_empty_caller.1 "o",
   C10_constructor_empty_caller.2.1 "o" "bob",
   C10_constructor_empty_caller.2.2.1 "o" "x" (by decide),
   C10_constructor_empty_caller.2.2.2.1 "o" (some ""),
   C10_constructor_empty_caller.2.2.2.2 "o" "bob" 1 "p1" "bh" "a" 1 "e" "ok"
     "t1" (by decide)⟩
